import Mathlib

/-!
Verification of the sncf-max-confirmator repository.

The development shallowly embeds the TypeScript sources:
  * the Booking API Client `SNCFMaxJeuneAPI` (src/unnamed/part_001, the
    rotating-cookie variant with DataDome support, the one the claims point at);
  * the orchestrator and entry point (src/functions/confirm-travels/app.ts);
  * the credential-store read path `getUsers`.

Modelling conventions:
  * The network is a deterministic oracle: a `World` carries the list of
    `Response`s the remote service will send, consumed in order by `fetch`.
    A `fetch` on an exhausted oracle models a rejected fetch promise
    (`ApiError.networkError`).
  * The `Set-Cookie` header of a response is modelled as an association list of
    cookie name/value pairs; `extractCookieFromHeaders` is the first-match
    lookup performed by the source's regex `name=([^;]+)` (which can only
    match a non-empty value, hence the non-empty filter).
  * Request bodies are not modelled (no claim inspects them); instead the
    `World` carries ghost observation lists: every issued HTTP request
    (`trace`), every travel passed to `confirmTravel` (`confirmCalls`),
    every travel whose confirmation succeeded (`confirmOks`), every card
    number passed to `getTravels` (`travelQueries`) and every customer info
    obtained (`customerInfos`).
  * JSON payloads follow the spec's fixed external contract: a response body
    parses to a travel list, a customer info, or some other JSON value.
  * The credential store is modelled in two layers: `StoreValue`/`RawUser`
    cover values whose JSON-array elements are all non-null, while
    `StoreValueJS`/`StoredElem` extend them with `null` elements, on which
    the source filter throws a TypeError (`getUsersJS`).
  * The fire-and-forget proactive refresh at the end of a successful
    `makeRequest` is sequentialized: it runs to completion, its error is
    swallowed, before control returns to the caller.
  * Exceptions become `Except ApiError`; the mutable `this._accessToken` /
    `this._datadomeCookie` fields become the explicit `ClientState` threaded
    through every operation (kept in the `World`, since callers observe it
    even when the operation throws).
-/

namespace SNCF

/-- Confirmation status of a travel (the `travelConfirmed` union type). -/
inductive TravelConfirmedStatus where
  | TOO_EARLY_TO_CONFIRM
  | TOO_LATE_TO_CONFIRM
  | TO_BE_CONFIRMED
  | WILL_BE_CANCELED
  | CONFIRMED
deriving DecidableEq, Repr

/-- A travel/booking record (interface `Travel`). -/
structure Travel where
  orderId : String
  dvNumber : String
  departureDateTime : String
  trainNumber : String
  travelConfirmed : TravelConfirmedStatus
deriving DecidableEq, Repr

/-- A SNCF Max Jeune card (interface `Card`). -/
structure Card where
  cardNumber : String
  productType : String
  contractStatus : String
deriving DecidableEq, Repr

/-- Customer profile (interface `CustomerInfo`). -/
structure CustomerInfo where
  firstName : String
  lastName : String
  cards : List Card
deriving DecidableEq, Repr

/-- Parsed JSON payload of a response body, per the fixed external contract:
a travel array, a customer-info object, or any other JSON value. -/
inductive Payload where
  | travels (ts : List Travel)
  | customer (c : CustomerInfo)
  | other
deriving DecidableEq, Repr

/-- An HTTP response from the remote service: status code, the cookies carried
by its `Set-Cookie` header, its text body, and its parsed JSON payload. -/
structure Response where
  status : Nat
  setCookies : List (String × String)
  body : String
  payload : Payload
deriving DecidableEq, Repr

/-- The fetch `Response.ok` flag: status in the range 200-299. -/
def Response.ok (r : Response) : Bool :=
  decide (200 ≤ r.status) && decide (r.status < 300)

/-- The mutable state of a `SNCFMaxJeuneAPI` instance: the fields
`_accessToken` and `_datadomeCookie`. -/
structure ClientState where
  accessToken : String
  datadomeCookie : Option String
deriving DecidableEq, Repr

/-- One HTTP request as issued on the wire: target URL and the `Cookie`
header that was sent with it. -/
structure Request where
  url : String
  cookie : String
deriving DecidableEq, Repr

/-- The world the embedded program runs in: current client state, the oracle
of upcoming responses, and the ghost observation lists described in the
header comment. -/
structure World where
  client : ClientState
  pending : List Response
  trace : List Request
  confirmCalls : List Travel
  confirmOks : List Travel
  travelQueries : List String
  customerInfos : List CustomerInfo
deriving DecidableEq, Repr

/-- Errors thrown by the client (the source throws `Error` objects with
message strings; the constructors carry the data interpolated into those
messages). -/
inductive ApiError where
  | networkError
  | refreshFailed (status : Nat) (body : String)
  | refreshNoNewCookie
  | requestFailedWithRefresh (refreshError : ApiError) (status : Nat) (body : String)
  | requestFailed (status : Nat) (body : String)
  | cannotGetTravels
deriving DecidableEq, Repr

/-- The message string of each error, mirroring the template literals of the
source (the response-headers dump appended to the refresh-failure message is
not modelled). -/
def ApiError.message : ApiError → String
  | ApiError.networkError => "fetch failed"
  | ApiError.refreshFailed status body =>
      "Token refresh failed (" ++ toString status ++ "): " ++ body
  | ApiError.refreshNoNewCookie => "Token refresh did not return a new auth cookie"
  | ApiError.requestFailedWithRefresh refreshError status body =>
      "API request failed due to expired token, and refresh failed: " ++
        refreshError.message ++ ". Original error (" ++ toString status ++ "): " ++ body
  | ApiError.requestFailed status body =>
      "API request failed (" ++ toString status ++ "): " ++ body
  | ApiError.cannotGetTravels => "Cannot get travels from SNCF Max Jeune."

/-- Base URL of the remote API (`SNCFMaxJeuneAPI.BASE_URL`). -/
def BASE_URL : String := "https://www.maxjeune-tgvinoui.sncf/api/public"

/-- URL of the token-refresh endpoint. -/
def refreshUrl : String := BASE_URL ++ "/auth/refresh"

/-- Method `extractCookieFromHeaders`: first value of the named cookie in the
response's `Set-Cookie` header. The source regex `name=([^;]+)` requires a
non-empty value, so empty values never match. -/
def extractCookieFromHeaders (r : Response) (cookieName : String) : Option String :=
  match r.setCookies.find? (fun p => p.1 == cookieName && !(p.2 == ("" : String))) with
  | some p => some p.2
  | none => none

/-- Method `buildCookieHeader`: `auth=<token>` plus, when present,
`; datadome=<cookie>`. -/
def buildCookieHeader (s : ClientState) : String :=
  match s.datadomeCookie with
  | some d => "auth=" ++ s.accessToken ++ "; datadome=" ++ d
  | none => "auth=" ++ s.accessToken

/-- Method `updateCookiesFromResponse`: adopt a rotated `auth` cookie when it
is present and differs from the held token, then adopt a `datadome` cookie
when present. -/
def updateCookiesFromResponse (s : ClientState) (r : Response) : ClientState :=
  let s1 :=
    match extractCookieFromHeaders r ("auth") with
    | some newAuthCookie =>
        if newAuthCookie ≠ s.accessToken then { s with accessToken := newAuthCookie } else s
    | none => s
  match extractCookieFromHeaders r ("datadome") with
  | some datadomeCookie => { s1 with datadomeCookie := some datadomeCookie }
  | none => s1

/-- One `fetch`: records the issued request (URL plus `Cookie` header) in the
trace and consumes the next oracle response; an exhausted oracle models a
rejected fetch promise. -/
def fetch (url cookie : String) (w : World) : Except ApiError Response × World :=
  match w.pending with
  | [] => (Except.error ApiError.networkError,
      { w with trace := w.trace ++ [Request.mk url cookie] })
  | r :: rest => (Except.ok r,
      { w with pending := rest, trace := w.trace ++ [Request.mk url cookie] })

/-- Method `refreshToken`: POST to the refresh endpoint with the current
cookie header, adopt any rotated cookies, fail hard if the response is not
successful, then fail unless a new auth cookie (different from the — by now
already updated — held token) was returned. -/
def refreshToken (w : World) : Except ApiError Unit × World :=
  match fetch refreshUrl (buildCookieHeader w.client) w with
  | (Except.error e, w1) => (Except.error e, w1)
  | (Except.ok r, w1) =>
    let w2 := { w1 with client := updateCookiesFromResponse w1.client r }
    if r.ok then
      match extractCookieFromHeaders r ("auth") with
      | some newAuthCookie =>
          if newAuthCookie = w2.client.accessToken then
            (Except.error ApiError.refreshNoNewCookie, w2)
          else (Except.ok (), w2)
      | none => (Except.error ApiError.refreshNoNewCookie, w2)
    else (Except.error (ApiError.refreshFailed r.status r.body), w2)

/-- Tail of `makeRequest` shared by both retry modes: throw an API error on an
unsuccessful response, otherwise fire the proactive best-effort token refresh
(sequentialized, error swallowed) and return the response. -/
def finishRequest (r : Response) (w : World) : Except ApiError Response × World :=
  if r.ok then
    let res := refreshToken w
    (Except.ok r, res.2)
  else (Except.error (ApiError.requestFailed r.status r.body), w)

/-- Method `makeRequest` with `retryOnRefresh = false`: fetch with the current
cookie header, adopt rotated cookies, then finish (the 401/403 refresh branch
is disabled). -/
def makeRequestNoRetry (url : String) (w : World) : Except ApiError Response × World :=
  match fetch url (buildCookieHeader w.client) w with
  | (Except.error e, w1) => (Except.error e, w1)
  | (Except.ok r, w1) =>
    let w2 := { w1 with client := updateCookiesFromResponse w1.client r }
    finishRequest r w2

/-- Method `makeRequest` with the default `retryOnRefresh = true`: fetch with
the current cookie header, adopt rotated cookies; on a 401/403 run the refresh
procedure and either retry exactly once (with the retry flag cleared) or throw
the composite error; otherwise finish. -/
def makeRequest (url : String) (w : World) : Except ApiError Response × World :=
  match fetch url (buildCookieHeader w.client) w with
  | (Except.error e, w1) => (Except.error e, w1)
  | (Except.ok r, w1) =>
    let w2 := { w1 with client := updateCookiesFromResponse w1.client r }
    if r.status = 401 ∨ r.status = 403 then
      match refreshToken w2 with
      | (Except.ok _, w3) => makeRequestNoRetry url w3
      | (Except.error refreshError, w3) =>
          (Except.error (ApiError.requestFailedWithRefresh refreshError r.status r.body), w3)
    else finishRequest r w2

/-- Method `getTravels`: authenticated POST to `/reservation/travel-consultation`
(the card number is recorded in the ghost `travelQueries` list; the request
body, which carries the card number and the ISO start date, is not otherwise
modelled); fails unless the parsed payload is an array. -/
def getTravels (cardNumber : String) (w : World) : Except ApiError (List Travel) × World :=
  let w0 := { w with travelQueries := w.travelQueries ++ [cardNumber] }
  match makeRequest (BASE_URL ++ "/reservation/travel-consultation") w0 with
  | (Except.error e, w1) => (Except.error e, w1)
  | (Except.ok r, w1) =>
    match r.payload with
    | Payload.travels ts => (Except.ok ts, w1)
    | _ => (Except.error ApiError.cannotGetTravels, w1)

/-- The unchecked `data as CustomerInfo` cast of `getCustomerInfo`. A payload
outside the fixed external contract gives undefined field accesses in the
source; the model maps it to the empty customer. -/
def castCustomerInfo : Payload → CustomerInfo
  | Payload.customer c => c
  | _ => CustomerInfo.mk ("") ("") []

/-- Method `getCustomerInfo`: authenticated POST to `/customer/read-customer`;
the parsed payload is cast to `CustomerInfo` without validation. The obtained
info is recorded in the ghost `customerInfos` list. -/
def getCustomerInfo (w : World) : Except ApiError CustomerInfo × World :=
  match makeRequest (BASE_URL ++ "/customer/read-customer") w with
  | (Except.error e, w1) => (Except.error e, w1)
  | (Except.ok r, w1) =>
    let info := castCustomerInfo r.payload
    (Except.ok info, { w1 with customerInfos := w1.customerInfos ++ [info] })

/-- Method `confirmTravel`: authenticated POST to `/reservation/travel-confirm`
with the travel's carrier reference, train number and departure time (carried
in the unmodelled request body). The travel passed in is recorded in the ghost
`confirmCalls` list on entry, and in `confirmOks` when the request succeeds. -/
def confirmTravel (travel : Travel) (w : World) : Except ApiError Unit × World :=
  let w0 := { w with confirmCalls := w.confirmCalls ++ [travel] }
  match makeRequest (BASE_URL ++ "/reservation/travel-confirm") w0 with
  | (Except.error e, w1) => (Except.error e, w1)
  | (Except.ok _, w1) => (Except.ok (), { w1 with confirmOks := w1.confirmOks ++ [travel] })

/-- A stored credential (interface `SNCFUser` of app.ts): optional display
name and the access token. -/
structure SNCFUser where
  name : Option String
  accessToken : String
deriving DecidableEq, Repr

/-- The aggregate result object `confirmedTravelsCount`: a JS object used as a
string-keyed map, with insertion-ordered keys. -/
abbrev CountMap : Type := List (String × Nat)

/-- Read a key of the count object (`undefined` when absent). -/
def lookupCount : CountMap → String → Option Nat
  | [], _ => none
  | (k', v) :: rest, k => if k' = k then some v else lookupCount rest k

/-- Assign a key of the count object: overwrite in place when present,
append at the end otherwise (JS object key semantics). -/
def setCount : CountMap → String → Nat → CountMap
  | [], k, v => [(k, v)]
  | (k', v') :: rest, k, v =>
      if k' = k then (k', v) :: rest else (k', v') :: setCount rest k v

/-- The guard `if (!confirmedTravelsCount[cardNumber]) ... = 0`: a missing or
zero (falsy) entry is (re)initialized to 0. -/
def initCount (m : CountMap) (k : String) : CountMap :=
  match lookupCount m k with
  | some (Nat.succ _) => m
  | _ => setCount m k 0

/-- The statement `confirmedTravelsCount[cardNumber]++`. -/
def incCount (m : CountMap) (k : String) : CountMap :=
  setCount m k ((lookupCount m k).getD 0 + 1)

/-- The `for (const travel of travelsToConfirm)` loop of `confirmUserTravels`:
confirm each travel; on success copy the (possibly rotated) token onto the
user record and bump the card's count; on failure log and continue. -/
def confirmTravelsLoop (user : SNCFUser) (cardNumber : String) :
    List Travel → CountMap → World → SNCFUser × CountMap × World
  | [], counts, w => (user, counts, w)
  | travel :: rest, counts, w =>
    match confirmTravel travel w with
    | (Except.ok _, w1) =>
        confirmTravelsLoop { user with accessToken := w1.client.accessToken } cardNumber
          rest (incCount counts cardNumber) w1
    | (Except.error _, w1) => confirmTravelsLoop user cardNumber rest counts w1

/-- The `for (const card of validCards)` loop of `confirmUserTravels`:
initialize the card's count entry, fetch its travels (skipping the card on
failure, copying the rotated token on success), filter to `TO_BE_CONFIRMED`
and run the confirmation loop. -/
def cardsLoop (user : SNCFUser) : List Card → CountMap → World → SNCFUser × CountMap × World
  | [], counts, w => (user, counts, w)
  | card :: rest, counts, w =>
    let counts1 := initCount counts card.cardNumber
    match getTravels card.cardNumber w with
    | (Except.error _, w1) => cardsLoop user rest counts1 w1
    | (Except.ok travels, w1) =>
      let user1 := { user with accessToken := w1.client.accessToken }
      let travelsToConfirm :=
        travels.filter (fun travel =>
          decide (travel.travelConfirmed = TravelConfirmedStatus.TO_BE_CONFIRMED))
      let out := confirmTravelsLoop user1 card.cardNumber travelsToConfirm counts1 w1
      cardsLoop out.1 rest out.2.1 out.2.2

/-- The predicate of the `validCards` filter: `contractStatus === "VALIDE"`
and `productType === "TGV_MAX_JEUNE"`. -/
def validCardFilter (card : Card) : Bool :=
  card.contractStatus == ("VALIDE" : String) && card.productType == ("TGV_MAX_JEUNE" : String)

/-- The body of the `for (const user of users)` loop of `confirmUserTravels`:
build a fresh client from the user's token, fetch the customer info (skipping
the user on failure), update the user's token and name, filter to eligible
cards (skipping when none) and run the card loop. -/
def processUser (user : SNCFUser) (counts : CountMap) (w : World) :
    SNCFUser × CountMap × World :=
  let w0 := { w with client := ClientState.mk user.accessToken none }
  match getCustomerInfo w0 with
  | (Except.error _, w1) => (user, counts, w1)
  | (Except.ok customerInfo, w1) =>
    let user1 := { user with
      accessToken := w1.client.accessToken,
      name := some (customerInfo.firstName ++ " " ++ customerInfo.lastName) }
    let validCards := customerInfo.cards.filter validCardFilter
    if validCards.isEmpty then (user1, counts, w1)
    else cardsLoop user1 validCards counts w1

/-- The `for (const user of users)` loop: process the users in order,
collecting the (in-place mutated) user records. -/
def usersLoop : List SNCFUser → CountMap → World → List SNCFUser × CountMap × World
  | [], counts, w => ([], counts, w)
  | user :: rest, counts, w =>
    let out := processUser user counts w
    let outRest := usersLoop rest out.2.1 out.2.2
    (out.1 :: outRest.1, outRest.2.1, outRest.2.2)

/-- Function `confirmUserTravels`: run the user loop, then persist the updated
credential collection (the fire-and-forget SSM write stores the returned user
list; its failure is swallowed). Returns the per-card confirmation counts, the
persisted user list and the final world. -/
def confirmUserTravels (users : List SNCFUser) (w : World) :
    CountMap × List SNCFUser × World :=
  let out := usersLoop users [] w
  (out.2.1, out.1, out.2.2)

/-- An object-like entry of the JSON array stored in SSM: a non-null JSON
value, on which a property read yields the field or `undefined`, so both
fields may be absent (a primitive element is an entry with no fields). A
`null` element behaves differently — reading `accessToken` on it throws — and
is expressible only in the extended model below (`StoredElem`). -/
structure RawUser where
  name : Option String
  accessToken : Option String
deriving DecidableEq, Repr

/-- What the credential store can hold, as seen through `getParameterValue`
followed by `JSON.parse`: a missing value (null from SSM, which also covers
the falsy empty string), a string that is not valid JSON, JSON that is not an
array, or a JSON array of non-null entries. Arrays containing `null`
elements, on which the source filter throws, live in the extended model
`StoreValueJS` below. -/
inductive StoreValue where
  | missing
  | invalidJson
  | jsonNonArray
  | jsonArray (users : List RawUser)
deriving DecidableEq, Repr

/-- Errors thrown by `getUsers`, carrying the thrown message. -/
inductive GetUsersError where
  | cannotGet
  | cannotParse
  | notArray
deriving DecidableEq, Repr

/-- Message strings of the `getUsers` errors. -/
def GetUsersError.message : GetUsersError → String
  | GetUsersError.cannotGet => "Cannot get SNCF users from SSM."
  | GetUsersError.cannotParse => "Cannot parse SNCF users from SSM."
  | GetUsersError.notArray => "SNCF users is not an array."

/-- JS truthiness of the optional `accessToken` field: present and non-empty. -/
def truthyToken : Option String → Bool
  | some t => !(t == ("" : String))
  | none => false

/-- Function `getUsers` of app.ts over store values whose array elements are
all non-null: fail on a missing value, unparsable JSON or a non-array;
otherwise keep (in order) exactly the entries with a truthy `accessToken`
(the source filters and then casts the raw entries to `SNCFUser`; the model
fuses filter and cast into one pass). For arrays with `null` elements —
where the source filter throws a TypeError instead — see `getUsersJS`. -/
def getUsers (v : StoreValue) : Except GetUsersError (List SNCFUser) :=
  match v with
  | StoreValue.missing => Except.error GetUsersError.cannotGet
  | StoreValue.invalidJson => Except.error GetUsersError.cannotParse
  | StoreValue.jsonNonArray => Except.error GetUsersError.notArray
  | StoreValue.jsonArray users =>
      Except.ok (users.filterMap (fun user =>
        match user.accessToken with
        | some t => if t == ("" : String) then none else some (SNCFUser.mk user.name t)
        | none => none))

/-- An element of a stored JSON array as the source sees it: a `null` element
(on which the filter predicate `user.accessToken` throws a TypeError), or any
non-null JSON value, which behaves as an object-like entry with an optional
`accessToken` field. -/
inductive StoredElem where
  | jsNull
  | obj (user : RawUser)
deriving DecidableEq, Repr

/-- The credential-store domain extended with JSON arrays that may contain
`null` elements. -/
inductive StoreValueJS where
  | missing
  | invalidJson
  | jsonNonArray
  | jsonArray (users : List StoredElem)
deriving DecidableEq, Repr

/-- Errors escaping `getUsers` over the extended domain: the three thrown
`Error`s, plus the TypeError raised by reading `accessToken` on a `null`
array element inside the filter (not caught by `getUsers`, it propagates to
the handler like the others). -/
inductive GetUsersErrorJS where
  | cannotGet
  | cannotParse
  | notArray
  | typeError
deriving DecidableEq, Repr

/-- The statement `users.filter((user) => user.accessToken)` with JS
semantics over possibly-null elements, fused with the cast to `SNCFUser` as
in `getUsers`: elements are visited left to right; reading `accessToken` on a
`null` element throws a TypeError; an object-like element is kept exactly
when its token is present and non-empty. -/
def filterTruthyTokens : List StoredElem → Except GetUsersErrorJS (List SNCFUser)
  | [] => Except.ok []
  | StoredElem.jsNull :: _ => Except.error GetUsersErrorJS.typeError
  | StoredElem.obj user :: rest =>
      match user.accessToken with
      | some t =>
          if t == ("" : String) then filterTruthyTokens rest
          else (filterTruthyTokens rest).map (fun us => SNCFUser.mk user.name t :: us)
      | none => filterTruthyTokens rest

/-- Function `getUsers` of app.ts over the extended store domain: same
missing/parse/array checks, then the throwing filter. -/
def getUsersJS (v : StoreValueJS) : Except GetUsersErrorJS (List SNCFUser) :=
  match v with
  | StoreValueJS.missing => Except.error GetUsersErrorJS.cannotGet
  | StoreValueJS.invalidJson => Except.error GetUsersErrorJS.cannotParse
  | StoreValueJS.jsonNonArray => Except.error GetUsersErrorJS.notArray
  | StoreValueJS.jsonArray users => filterTruthyTokens users

/-- The API-Gateway-style result of the lambda handler. The source wraps the
message in a JSON object body; the model keeps the message itself. -/
structure LambdaResult where
  statusCode : Nat
  body : String
deriving DecidableEq, Repr

/-- The per-card lines of the success message. -/
def stringifiedCounts (counts : CountMap) : String :=
  String.intercalate ("\n")
    (counts.map (fun p => "- " ++ p.1 ++ ": " ++ toString p.2))

/-- Function `lambdaHandler`: 500 with the error message when `getUsers`
throws (before any API call); otherwise run `confirmUserTravels` and answer
204 with a summary message. -/
def lambdaHandler (store : StoreValue) (w : World) : LambdaResult × World :=
  match getUsers store with
  | Except.error e => (LambdaResult.mk 500 e.message, w)
  | Except.ok users =>
    let out := confirmUserTravels users w
    let total : Nat := (out.1.map (fun p => p.2)).foldl (fun acc count => acc + count) 0
    let message :=
      if total = 0 then "No travels confirmed."
      else "Travels confirmed: " ++ stringifiedCounts out.1
    (LambdaResult.mk 204 message, out.2.2)

/-- A fresh world: a client holding the given token, a scripted oracle, and
empty traces. -/
def mkWorld (token : String) (pending : List Response) : World :=
  World.mk (ClientState.mk token none) pending [] [] [] [] []

/-- Concrete input: a 401 response (token expired) with no rotated cookie. -/
def resp401 : Response := Response.mk 401 [] ("expired") Payload.other

/-- Concrete input: a successful refresh response rotating the token to T2. -/
def respRefreshRotated : Response :=
  Response.mk 200 [(("auth"), ("T2"))] ("refreshed") Payload.other

/-- Concrete input: a plain successful response. -/
def respPlain200 : Response := Response.mk 200 [] ("fine") Payload.other

/-- Concrete input: a server error response that nevertheless rotates the
auth cookie to T2. -/
def resp500Rotated : Response :=
  Response.mk 500 [(("auth"), ("T2"))] ("server error") Payload.other

/-- The travel-consultation endpoint URL. -/
def consultUrl : String := BASE_URL ++ "/reservation/travel-consultation"

/-- Concrete scenario: one eligible card. -/
def scnCard : Card := Card.mk ("C1") ("TGV_MAX_JEUNE") ("VALIDE")

/-- Concrete scenario: the customer owning the card. -/
def scnInfo : CustomerInfo := CustomerInfo.mk ("A") ("B") [scnCard]

/-- Concrete scenario: a travel waiting to be confirmed. -/
def scnTravelTbc : Travel :=
  Travel.mk ("o1") ("dv1") ("d1") ("tr1") TravelConfirmedStatus.TO_BE_CONFIRMED

/-- Concrete scenario: an already confirmed travel. -/
def scnTravelDone : Travel :=
  Travel.mk ("o2") ("dv2") ("d2") ("tr2") TravelConfirmedStatus.CONFIRMED

/-- Concrete scenario: the customer-info response. -/
def scnRespCustomer : Response := Response.mk 200 [] ("") (Payload.customer scnInfo)

/-- Concrete scenario: a successful refresh-endpoint response carrying no
cookie (consumed by the proactive refresh fired after each success). -/
def scnRespRefresh : Response := Response.mk 200 [] ("") Payload.other

/-- Concrete scenario: the travel-consultation response. -/
def scnRespTravels : Response :=
  Response.mk 200 [] ("") (Payload.travels [scnTravelTbc, scnTravelDone])

/-- Concrete scenario: the travel-confirm response. -/
def scnRespConfirm : Response := Response.mk 200 [] ("") Payload.other

/-- Concrete scenario: the stored credential. -/
def scnUser : SNCFUser := SNCFUser.mk (some ("u")) ("T1")

/-- Concrete scenario: the full oracle for one user confirming one travel on
one eligible card (each successful call burns one refresh response through the
proactive refresh). -/
def scnWorld : World :=
  mkWorld ("X")
    [scnRespCustomer, scnRespRefresh, scnRespTravels, scnRespRefresh,
      scnRespConfirm, scnRespRefresh]

/-- The read-customer endpoint URL. -/
def readCustomerUrl : String := BASE_URL ++ "/customer/read-customer"

/-- Concrete scenario: a customer with no cards at all. -/
def scnInfoNoCards : CustomerInfo := CustomerInfo.mk ("N") ("C") []

/-- Concrete scenario: oracle for a user whose profile has no eligible cards. -/
def scnWorldNoCards : World :=
  mkWorld ("X") [Response.mk 200 [] ("") (Payload.customer scnInfoNoCards), scnRespRefresh]

/-- Concrete input: a stored credential array with one truthy-token entry, one
entry without a token and one entry with an empty token. -/
def rawSample : List RawUser :=
  [RawUser.mk (some ("u")) (some ("T1")), RawUser.mk none none,
    RawUser.mk (some ("v")) (some (""))]

/-- Concrete input: the world of the C2 scenario — a client holding T1 about
to receive a successful refresh response rotating the token to T2. -/
def wRotatedRefresh : World := mkWorld ("T1") [respRefreshRotated]

/-- Concrete input: the world of the C1 scenario — a client holding T1 whose
first attempt gets a 401, with a successful rotating refresh response and a
plain success scripted behind it. -/
def wFirst401 : World := mkWorld ("T1") [resp401, respRefreshRotated, respPlain200]

/-- Concrete input: a credential holding token T1. -/
def staleUser : SNCFUser := SNCFUser.mk none ("T1")

/-- Concrete input: the world of the C3 counterexample — the single scripted
response fails the call with a 500 while rotating the token to T2. -/
def wStaleRun : World := mkWorld ("") [resp500Rotated]

/-- The client state obtained by adopting, in order, the cookies of a list of
received responses. -/
def holds (c : ClientState) (rs : List Response) : ClientState :=
  rs.foldl updateCookiesFromResponse c

/-- Relation between the worlds before and after an operation: the operation
consumed a prefix of the pending responses and the client state evolved
exactly by adopting the cookies of that prefix, in order. -/
def FoldStep (w w' : World) : Prop :=
  ∃ k, w'.pending = w.pending.drop k ∧ w'.client = holds w.client (w.pending.take k)

/-- The world right after `makeRequest`'s initial fetch consumed response `r`
and the rotated cookies were adopted. -/
def afterFetch (url : String) (w : World) (r : Response) (rest : List Response) : World :=
  { w with pending := rest,
           trace := w.trace ++ [Request.mk url (buildCookieHeader w.client)],
           client := updateCookiesFromResponse w.client r }

/-- The token `tok` is one the client actually held at some point while
consuming a prefix of `pend`, starting from state `c0` (the prefix of length 0
gives the initial token). -/
def TokenFrom (c0 : ClientState) (pend : List Response) (tok : String) : Prop :=
  ∃ j, tok = (holds c0 (pend.take j)).accessToken

/-- Ghost observation lists untouched between two worlds. -/
def GhostsEq (w w' : World) : Prop :=
  w'.confirmCalls = w.confirmCalls ∧ w'.confirmOks = w.confirmOks ∧
    w'.travelQueries = w.travelQueries ∧ w'.customerInfos = w.customerInfos

theorem holds_nil (c : ClientState) : holds c [] = c := rfl

theorem holds_append (c : ClientState) (xs ys : List Response) :
    holds c (xs ++ ys) = holds (holds c xs) ys := by
  simp [holds, List.foldl_append]

theorem foldStep_refl (w : World) : FoldStep w w :=
  ⟨0, by simp [holds]⟩

theorem foldStep_trans {w w' w'' : World} (h1 : FoldStep w w') (h2 : FoldStep w' w'') :
    FoldStep w w'' := by
  obtain ⟨k1, hp1, hc1⟩ := h1
  obtain ⟨k2, hp2, hc2⟩ := h2
  refine ⟨k1 + k2, ?_, ?_⟩
  · rw [hp2, hp1, List.drop_drop, Nat.add_comm]
  · rw [hc2, hp1, hc1, List.take_add, holds_append]

theorem ghostsEq_refl (w : World) : GhostsEq w w := ⟨rfl, rfl, rfl, rfl⟩

theorem ghostsEq_trans {w w' w'' : World} (h1 : GhostsEq w w') (h2 : GhostsEq w' w'') :
    GhostsEq w w'' := by
  obtain ⟨a1, b1, c1, d1⟩ := h1
  obtain ⟨a2, b2, c2, d2⟩ := h2
  exact ⟨a2.trans a1, b2.trans b1, c2.trans c1, d2.trans d1⟩

theorem updateCookies_accessToken_eq (s : ClientState) (r : Response) (c : String)
    (h : extractCookieFromHeaders r ("auth") = some c) :
    (updateCookiesFromResponse s r).accessToken = c := by
  unfold updateCookiesFromResponse
  rw [h]
  cases hdd : extractCookieFromHeaders r ("datadome") <;>
    by_cases hcs : c = s.accessToken <;> simp [hdd, hcs]

theorem refreshToken_not_ok (w : World) (u : Unit) :
    (refreshToken w).1 ≠ Except.ok u := by
  unfold refreshToken fetch
  cases hp : w.pending with
  | nil => simp
  | cons r rest =>
    simp only
    by_cases hok : r.ok
    · cases hauth : extractCookieFromHeaders r ("auth") with
      | none => simp [hok, hauth]
      | some c =>
        have hadopt := updateCookies_accessToken_eq w.client r c hauth
        simp [hok, hauth, hadopt]
    · simp [hok]

theorem refreshToken_snd (w : World) :
    (refreshToken w).2 =
      match w.pending with
      | [] => { w with trace := w.trace ++ [Request.mk refreshUrl (buildCookieHeader w.client)] }
      | r :: rest =>
          { w with pending := rest,
                   trace := w.trace ++ [Request.mk refreshUrl (buildCookieHeader w.client)],
                   client := updateCookiesFromResponse w.client r } := by
  unfold refreshToken fetch
  cases w.pending with
  | nil => rfl
  | cons r rest =>
    simp only
    split <;> first
      | rfl
      | (split <;> first
          | rfl
          | (split <;> rfl))

theorem refreshToken_foldStep (w : World) : FoldStep w (refreshToken w).2 := by
  rw [refreshToken_snd]
  cases hp : w.pending with
  | nil => exact ⟨0, by simp [hp, holds]⟩
  | cons r rest => exact ⟨1, by simp [hp, holds]⟩

theorem refreshToken_ghosts (w : World) : GhostsEq w (refreshToken w).2 := by
  rw [refreshToken_snd]
  cases hp : w.pending <;> exact ⟨rfl, rfl, rfl, rfl⟩

theorem refreshToken_trace (w : World) :
    (refreshToken w).2.trace =
      w.trace ++ [Request.mk refreshUrl (buildCookieHeader w.client)] := by
  rw [refreshToken_snd]
  cases hp : w.pending <;> rfl

theorem finishRequest_snd (r : Response) (w : World) :
    (finishRequest r w).2 = if r.ok then (refreshToken w).2 else w := by
  unfold finishRequest
  split <;> rfl

theorem finishRequest_foldStep (r : Response) (w : World) : FoldStep w (finishRequest r w).2 := by
  rw [finishRequest_snd]
  split
  · exact refreshToken_foldStep w
  · exact foldStep_refl w

theorem finishRequest_ghosts (r : Response) (w : World) : GhostsEq w (finishRequest r w).2 := by
  rw [finishRequest_snd]
  split
  · exact refreshToken_ghosts w
  · exact ghostsEq_refl w

theorem afterFetch_foldStep (url : String) (w : World) (r : Response) (rest : List Response)
    (hp : w.pending = r :: rest) : FoldStep w (afterFetch url w r rest) :=
  ⟨1, by simp [afterFetch, hp, holds]⟩

theorem afterFetch_ghosts (url : String) (w : World) (r : Response) (rest : List Response) :
    GhostsEq w (afterFetch url w r rest) := ⟨rfl, rfl, rfl, rfl⟩

theorem makeRequestNoRetry_nil (url : String) (w : World) (hp : w.pending = []) :
    makeRequestNoRetry url w =
      (Except.error ApiError.networkError,
        { w with trace := w.trace ++ [Request.mk url (buildCookieHeader w.client)] }) := by
  unfold makeRequestNoRetry fetch
  rw [hp]

theorem makeRequestNoRetry_cons (url : String) (w : World) (r : Response) (rest : List Response)
    (hp : w.pending = r :: rest) :
    makeRequestNoRetry url w = finishRequest r (afterFetch url w r rest) := by
  unfold makeRequestNoRetry fetch afterFetch
  rw [hp]

theorem makeRequest_nil (url : String) (w : World) (hp : w.pending = []) :
    makeRequest url w =
      (Except.error ApiError.networkError,
        { w with trace := w.trace ++ [Request.mk url (buildCookieHeader w.client)] }) := by
  unfold makeRequest fetch
  rw [hp]

theorem makeRequest_cons (url : String) (w : World) (r : Response) (rest : List Response)
    (hp : w.pending = r :: rest) :
    makeRequest url w =
      if r.status = 401 ∨ r.status = 403 then
        match refreshToken (afterFetch url w r rest) with
        | (Except.ok _, w3) => makeRequestNoRetry url w3
        | (Except.error e, w3) =>
            (Except.error (ApiError.requestFailedWithRefresh e r.status r.body), w3)
      else finishRequest r (afterFetch url w r rest) := by
  unfold makeRequest fetch afterFetch
  rw [hp]

theorem makeRequestNoRetry_foldStep (url : String) (w : World) :
    FoldStep w (makeRequestNoRetry url w).2 := by
  cases hp : w.pending with
  | nil => rw [makeRequestNoRetry_nil url w hp]; exact ⟨0, by simp [hp, holds]⟩
  | cons r rest =>
    rw [makeRequestNoRetry_cons url w r rest hp]
    exact foldStep_trans (afterFetch_foldStep url w r rest hp) (finishRequest_foldStep r _)

theorem makeRequestNoRetry_ghosts (url : String) (w : World) :
    GhostsEq w (makeRequestNoRetry url w).2 := by
  cases hp : w.pending with
  | nil => rw [makeRequestNoRetry_nil url w hp]; exact ⟨rfl, rfl, rfl, rfl⟩
  | cons r rest =>
    rw [makeRequestNoRetry_cons url w r rest hp]
    exact ghostsEq_trans (afterFetch_ghosts url w r rest) (finishRequest_ghosts r _)

theorem makeRequest_foldStep (url : String) (w : World) :
    FoldStep w (makeRequest url w).2 := by
  cases hp : w.pending with
  | nil => rw [makeRequest_nil url w hp]; exact ⟨0, by simp [hp, holds]⟩
  | cons r rest =>
    rw [makeRequest_cons url w r rest hp]
    have h2 := afterFetch_foldStep url w r rest hp
    by_cases h401 : r.status = 401 ∨ r.status = 403
    · rw [if_pos h401]
      rcases hres : refreshToken (afterFetch url w r rest) with ⟨res, w3⟩
      have h3 : FoldStep (afterFetch url w r rest) w3 := by
        have h := refreshToken_foldStep (afterFetch url w r rest)
        rw [hres] at h
        exact h
      cases res with
      | ok u => exact foldStep_trans (foldStep_trans h2 h3) (makeRequestNoRetry_foldStep url w3)
      | error e => exact foldStep_trans h2 h3
    · rw [if_neg h401]
      exact foldStep_trans h2 (finishRequest_foldStep r _)

theorem makeRequest_ghosts (url : String) (w : World) :
    GhostsEq w (makeRequest url w).2 := by
  cases hp : w.pending with
  | nil => rw [makeRequest_nil url w hp]; exact ⟨rfl, rfl, rfl, rfl⟩
  | cons r rest =>
    rw [makeRequest_cons url w r rest hp]
    have h2 := afterFetch_ghosts url w r rest
    by_cases h401 : r.status = 401 ∨ r.status = 403
    · rw [if_pos h401]
      rcases hres : refreshToken (afterFetch url w r rest) with ⟨res, w3⟩
      have h3 : GhostsEq (afterFetch url w r rest) w3 := by
        have h := refreshToken_ghosts (afterFetch url w r rest)
        rw [hres] at h
        exact h
      cases res with
      | ok u => exact ghostsEq_trans (ghostsEq_trans h2 h3) (makeRequestNoRetry_ghosts url w3)
      | error e => exact ghostsEq_trans h2 h3
    · rw [if_neg h401]
      exact ghostsEq_trans h2 (finishRequest_ghosts r _)

theorem makeRequest_401_spec (url : String) (w : World) (r : Response) (rest : List Response)
    (hp : w.pending = r :: rest) (h401 : r.status = 401 ∨ r.status = 403) :
    ∃ e, (refreshToken (afterFetch url w r rest)).1 = Except.error e ∧
      makeRequest url w =
        (Except.error (ApiError.requestFailedWithRefresh e r.status r.body),
         (refreshToken (afterFetch url w r rest)).2) := by
  rw [makeRequest_cons url w r rest hp, if_pos h401]
  rcases hres : refreshToken (afterFetch url w r rest) with ⟨res, w3⟩
  cases res with
  | ok u =>
    exact absurd (congrArg Prod.fst hres) (refreshToken_not_ok (afterFetch url w r rest) u)
  | error e => exact ⟨e, rfl, rfl⟩

theorem getTravels_world (c : String) (w : World) :
    FoldStep w (getTravels c w).2 ∧
    (getTravels c w).2.travelQueries = w.travelQueries ++ [c] ∧
    (getTravels c w).2.confirmCalls = w.confirmCalls ∧
    (getTravels c w).2.confirmOks = w.confirmOks ∧
    (getTravels c w).2.customerInfos = w.customerInfos := by
  unfold getTravels
  simp only
  rcases hm : makeRequest (BASE_URL ++ "/reservation/travel-consultation")
      { w with travelQueries := w.travelQueries ++ [c] } with ⟨res, w1⟩
  have hf : FoldStep w w1 := by
    have h := makeRequest_foldStep (BASE_URL ++ "/reservation/travel-consultation")
      { w with travelQueries := w.travelQueries ++ [c] }
    rw [hm] at h
    exact h
  have hg := makeRequest_ghosts (BASE_URL ++ "/reservation/travel-consultation")
      { w with travelQueries := w.travelQueries ++ [c] }
  rw [hm] at hg
  obtain ⟨hcc, hoks, htq, hci⟩ := hg
  cases res with
  | error e => exact ⟨hf, htq, hcc, hoks, hci⟩
  | ok r =>
    obtain ⟨st, sc, bd, pl⟩ := r
    cases pl <;> exact ⟨hf, htq, hcc, hoks, hci⟩

theorem getCustomerInfo_error_world (w w1 : World) (e : ApiError)
    (h : getCustomerInfo w = (Except.error e, w1)) :
    FoldStep w w1 ∧ GhostsEq w w1 := by
  unfold getCustomerInfo at h
  rcases hm : makeRequest (BASE_URL ++ "/customer/read-customer") w with ⟨res, w1'⟩
  have hf : FoldStep w w1' := by
    have hx := makeRequest_foldStep (BASE_URL ++ "/customer/read-customer") w
    rw [hm] at hx
    exact hx
  have hg : GhostsEq w w1' := by
    have hx := makeRequest_ghosts (BASE_URL ++ "/customer/read-customer") w
    rw [hm] at hx
    exact hx
  rw [hm] at h
  cases res with
  | error e' =>
    simp only [Prod.mk.injEq] at h
    obtain ⟨-, hw⟩ := h
    subst hw
    exact ⟨hf, hg⟩
  | ok r => simp at h

theorem getCustomerInfo_ok_world (w w1 : World) (info : CustomerInfo)
    (h : getCustomerInfo w = (Except.ok info, w1)) :
    FoldStep w w1 ∧
    w1.customerInfos = w.customerInfos ++ [info] ∧
    w1.confirmCalls = w.confirmCalls ∧
    w1.confirmOks = w.confirmOks ∧
    w1.travelQueries = w.travelQueries := by
  unfold getCustomerInfo at h
  rcases hm : makeRequest (BASE_URL ++ "/customer/read-customer") w with ⟨res, w1'⟩
  have hf : FoldStep w w1' := by
    have hx := makeRequest_foldStep (BASE_URL ++ "/customer/read-customer") w
    rw [hm] at hx
    exact hx
  have hg : GhostsEq w w1' := by
    have hx := makeRequest_ghosts (BASE_URL ++ "/customer/read-customer") w
    rw [hm] at hx
    exact hx
  rw [hm] at h
  obtain ⟨hcc, hoks, htq, hci⟩ := hg
  cases res with
  | error e' => simp at h
  | ok r =>
    simp only [Prod.mk.injEq, Except.ok.injEq] at h
    obtain ⟨hinfo, hw⟩ := h
    subst hw
    refine ⟨hf, ?_, hcc, hoks, htq⟩
    show w1'.customerInfos ++ [castCustomerInfo r.payload] = w.customerInfos ++ [info]
    rw [hci, hinfo]

theorem confirmTravel_world (t : Travel) (w : World) :
    FoldStep w (confirmTravel t w).2 ∧
    (confirmTravel t w).2.confirmCalls = w.confirmCalls ++ [t] ∧
    (confirmTravel t w).2.travelQueries = w.travelQueries ∧
    (confirmTravel t w).2.customerInfos = w.customerInfos ∧
    ((confirmTravel t w).1 = Except.ok () →
      (confirmTravel t w).2.confirmOks = w.confirmOks ++ [t]) ∧
    (∀ e, (confirmTravel t w).1 = Except.error e →
      (confirmTravel t w).2.confirmOks = w.confirmOks) := by
  unfold confirmTravel
  simp only
  rcases hm : makeRequest (BASE_URL ++ "/reservation/travel-confirm")
      { w with confirmCalls := w.confirmCalls ++ [t] } with ⟨res, w1⟩
  have hf : FoldStep w w1 := by
    have hx := makeRequest_foldStep (BASE_URL ++ "/reservation/travel-confirm")
      { w with confirmCalls := w.confirmCalls ++ [t] }
    rw [hm] at hx
    exact hx
  have hg : GhostsEq { w with confirmCalls := w.confirmCalls ++ [t] } w1 := by
    have hx := makeRequest_ghosts (BASE_URL ++ "/reservation/travel-confirm")
      { w with confirmCalls := w.confirmCalls ++ [t] }
    rw [hm] at hx
    exact hx
  obtain ⟨hcc, hoks, htq, hci⟩ := hg
  cases res with
  | error e =>
    exact ⟨hf, hcc, htq, hci, fun hc => Except.noConfusion hc, fun e' _ => hoks⟩
  | ok u =>
    cases u
    refine ⟨hf, hcc, htq, hci, fun _ => ?_, fun e' he' => Except.noConfusion he'⟩
    show w1.confirmOks ++ [t] = w.confirmOks ++ [t]
    rw [hoks]

theorem tokenFrom_base (c : ClientState) (p : List Response) : TokenFrom c p c.accessToken :=
  ⟨0, rfl⟩

theorem tokenFrom_shift {w w1 : World} (h : FoldStep w w1) {t : String}
    (ht : TokenFrom w1.client w1.pending t) : TokenFrom w.client w.pending t := by
  obtain ⟨k, hp, hc⟩ := h
  obtain ⟨j, hj⟩ := ht
  exact ⟨k + j, by rw [hj, hp, hc, List.take_add, holds_append]⟩

theorem tokenFrom_self {w w1 : World} (h : FoldStep w w1) :
    TokenFrom w.client w.pending w1.client.accessToken := by
  obtain ⟨k, hp, hc⟩ := h
  exact ⟨k, by rw [hc]⟩

theorem lookupCount_setCount_self (m : CountMap) (k : String) (v : Nat) :
    lookupCount (setCount m k v) k = some v := by
  induction m with
  | nil => simp [setCount, lookupCount]
  | cons p rest ih =>
    by_cases hk : p.1 = k
    · simp [setCount, hk, lookupCount]
    · simp [setCount, hk, lookupCount, ih]

theorem lookupCount_setCount_ne (m : CountMap) (k k' : String) (v : Nat) (hne : k' ≠ k) :
    lookupCount (setCount m k v) k' = lookupCount m k' := by
  have hkk : ¬ k = k' := fun h => hne h.symm
  induction m with
  | nil => simp [setCount, lookupCount, hkk]
  | cons p rest ih =>
    by_cases hk : p.1 = k
    · simp [setCount, hk, lookupCount, hkk]
    · by_cases hp' : p.1 = k'
      · simp [setCount, hk, lookupCount, hp', hne]
      · simp [setCount, hk, lookupCount, hp', ih]

theorem lookupCount_incCount_self (m : CountMap) (k : String) :
    lookupCount (incCount m k) k = some ((lookupCount m k).getD 0 + 1) :=
  lookupCount_setCount_self m k _

theorem lookupCount_incCount_ne (m : CountMap) (k k' : String) (hne : k' ≠ k) :
    lookupCount (incCount m k) k' = lookupCount m k' :=
  lookupCount_setCount_ne m k k' _ hne

theorem lookupCount_initCount_getD (m : CountMap) (k : String) :
    (lookupCount (initCount m k) k).getD 0 = (lookupCount m k).getD 0 := by
  unfold initCount
  cases hl : lookupCount m k with
  | none => simp [lookupCount_setCount_self]
  | some n =>
    cases n with
    | zero => simp [lookupCount_setCount_self, hl]
    | succ n' => simp [hl]

theorem lookupCount_initCount_ne (m : CountMap) (k k' : String) (hne : k' ≠ k) :
    lookupCount (initCount m k) k' = lookupCount m k' := by
  unfold initCount
  cases hl : lookupCount m k with
  | none => exact lookupCount_setCount_ne m k k' 0 hne
  | some n =>
    cases n with
    | zero => exact lookupCount_setCount_ne m k k' 0 hne
    | succ n' => rfl

theorem confirmTravelsLoop_spec (ts : List Travel) (user : SNCFUser) (cd : String)
    (counts : CountMap) (w : World) :
    FoldStep w (confirmTravelsLoop user cd ts counts w).2.2 ∧
    ((confirmTravelsLoop user cd ts counts w).1.accessToken = user.accessToken ∨
      TokenFrom w.client w.pending (confirmTravelsLoop user cd ts counts w).1.accessToken) := by
  induction ts generalizing user counts w with
  | nil => exact ⟨foldStep_refl w, Or.inl rfl⟩
  | cons t rest ih =>
    simp only [confirmTravelsLoop]
    rcases hct : confirmTravel t w with ⟨res, w1⟩
    have hw := confirmTravel_world t w
    rw [hct] at hw
    have hf1 : FoldStep w w1 := hw.1
    cases res with
    | error e =>
      obtain ⟨f2, prov⟩ := ih user counts w1
      refine ⟨foldStep_trans hf1 f2, ?_⟩
      cases prov with
      | inl h => exact Or.inl h
      | inr h => exact Or.inr (tokenFrom_shift hf1 h)
    | ok u =>
      cases u
      obtain ⟨f2, prov⟩ :=
        ih { user with accessToken := w1.client.accessToken } (incCount counts cd) w1
      refine ⟨foldStep_trans hf1 f2, ?_⟩
      cases prov with
      | inl h => exact Or.inr (by rw [h]; exact tokenFrom_self hf1)
      | inr h => exact Or.inr (tokenFrom_shift hf1 h)

theorem confirmTravelsLoop_counts (ts : List Travel) (user : SNCFUser) (cd : String)
    (counts : CountMap) (w : World) :
    ∃ d, (confirmTravelsLoop user cd ts counts w).2.2.confirmOks = w.confirmOks ++ d ∧
      (lookupCount (confirmTravelsLoop user cd ts counts w).2.1 cd).getD 0 =
        (lookupCount counts cd).getD 0 + d.length ∧
      ∀ cd', cd' ≠ cd →
        lookupCount (confirmTravelsLoop user cd ts counts w).2.1 cd' = lookupCount counts cd' := by
  induction ts generalizing user counts w with
  | nil => exact ⟨[], by simp [confirmTravelsLoop], by simp [confirmTravelsLoop],
      fun cd' _ => rfl⟩
  | cons t rest ih =>
    simp only [confirmTravelsLoop]
    rcases hct : confirmTravel t w with ⟨res, w1⟩
    have hw := confirmTravel_world t w
    rw [hct] at hw
    cases res with
    | error e =>
      have hoks : w1.confirmOks = w.confirmOks := hw.2.2.2.2.2 e rfl
      obtain ⟨d, h1, h2, h3⟩ := ih user counts w1
      exact ⟨d, by rw [h1, hoks], h2, h3⟩
    | ok u =>
      cases u
      have hoks : w1.confirmOks = w.confirmOks ++ [t] := hw.2.2.2.2.1 rfl
      obtain ⟨d, h1, h2, h3⟩ := ih { user with accessToken := w1.client.accessToken }
        (incCount counts cd) w1
      refine ⟨t :: d, ?_, ?_, ?_⟩
      · rw [h1, hoks, List.append_assoc]
        rfl
      · rw [h2]
        have hinc : (lookupCount (incCount counts cd) cd).getD 0 =
            (lookupCount counts cd).getD 0 + 1 := by
          rw [lookupCount_incCount_self]
          rfl
        rw [hinc, List.length_cons]
        omega
      · intro cd' hne
        rw [h3 cd' hne, lookupCount_incCount_ne counts cd cd' hne]

theorem confirmTravelsLoop_confirmCalls (ts : List Travel) (user : SNCFUser) (cd : String)
    (counts : CountMap) (w : World) :
    (confirmTravelsLoop user cd ts counts w).2.2.confirmCalls = w.confirmCalls ++ ts ∧
    (confirmTravelsLoop user cd ts counts w).2.2.travelQueries = w.travelQueries ∧
    (confirmTravelsLoop user cd ts counts w).2.2.customerInfos = w.customerInfos := by
  induction ts generalizing user counts w with
  | nil => exact ⟨by simp [confirmTravelsLoop], rfl, rfl⟩
  | cons t rest ih =>
    simp only [confirmTravelsLoop]
    rcases hct : confirmTravel t w with ⟨res, w1⟩
    have hw := confirmTravel_world t w
    rw [hct] at hw
    have hcc : w1.confirmCalls = w.confirmCalls ++ [t] := hw.2.1
    have htq : w1.travelQueries = w.travelQueries := hw.2.2.1
    have hci : w1.customerInfos = w.customerInfos := hw.2.2.2.1
    cases res with
    | error e =>
      obtain ⟨h1, h2, h3⟩ := ih user counts w1
      exact ⟨by rw [h1, hcc, List.append_assoc]; rfl,
        by rw [h2, htq], by rw [h3, hci]⟩
    | ok u =>
      cases u
      obtain ⟨h1, h2, h3⟩ := ih { user with accessToken := w1.client.accessToken }
        (incCount counts cd) w1
      exact ⟨by rw [h1, hcc, List.append_assoc]; rfl,
        by rw [h2, htq], by rw [h3, hci]⟩

theorem cardsLoop_spec (cards : List Card) (user : SNCFUser) (counts : CountMap) (w : World) :
    FoldStep w (cardsLoop user cards counts w).2.2 ∧
    ((cardsLoop user cards counts w).1.accessToken = user.accessToken ∨
      TokenFrom w.client w.pending (cardsLoop user cards counts w).1.accessToken) := by
  induction cards generalizing user counts w with
  | nil => exact ⟨foldStep_refl w, Or.inl rfl⟩
  | cons card rest ih =>
    simp only [cardsLoop]
    rcases hgt : getTravels card.cardNumber w with ⟨res, w1⟩
    have hw := getTravels_world card.cardNumber w
    rw [hgt] at hw
    have hf1 : FoldStep w w1 := hw.1
    cases res with
    | error e =>
      obtain ⟨f2, prov⟩ := ih user (initCount counts card.cardNumber) w1
      exact ⟨foldStep_trans hf1 f2, prov.imp id (tokenFrom_shift hf1)⟩
    | ok travels =>
      set T := confirmTravelsLoop { user with accessToken := w1.client.accessToken }
        card.cardNumber
        (travels.filter fun travel =>
          decide (travel.travelConfirmed = TravelConfirmedStatus.TO_BE_CONFIRMED))
        (initCount counts card.cardNumber) w1 with hT
      obtain ⟨fI, provI⟩ := confirmTravelsLoop_spec
        (travels.filter fun travel =>
          decide (travel.travelConfirmed = TravelConfirmedStatus.TO_BE_CONFIRMED))
        { user with accessToken := w1.client.accessToken } card.cardNumber
        (initCount counts card.cardNumber) w1
      obtain ⟨f2, prov⟩ := ih T.1 T.2.1 T.2.2
      constructor
      · exact foldStep_trans hf1 (foldStep_trans fI f2)
      · cases prov with
        | inl h =>
          cases provI with
          | inl h2 =>
            have h2' : T.1.accessToken = w1.client.accessToken := h2
            exact Or.inr ((h.trans h2').symm ▸ tokenFrom_self hf1)
          | inr h2 =>
            exact Or.inr (h.symm ▸ tokenFrom_shift hf1 h2)
        | inr h => exact Or.inr (tokenFrom_shift hf1 (tokenFrom_shift fI h))

theorem cardsLoop_confirmCalls (cards : List Card) (user : SNCFUser) (counts : CountMap)
    (w : World) :
    ∃ d, (cardsLoop user cards counts w).2.2.confirmCalls = w.confirmCalls ++ d ∧
      ∀ t ∈ d, t.travelConfirmed = TravelConfirmedStatus.TO_BE_CONFIRMED := by
  induction cards generalizing user counts w with
  | nil => exact ⟨[], by simp [cardsLoop], by simp⟩
  | cons card rest ih =>
    simp only [cardsLoop]
    rcases hgt : getTravels card.cardNumber w with ⟨res, w1⟩
    have hw := getTravels_world card.cardNumber w
    rw [hgt] at hw
    have hcc1 : w1.confirmCalls = w.confirmCalls := hw.2.2.1
    cases res with
    | error e =>
      obtain ⟨d, h1, h2⟩ := ih user (initCount counts card.cardNumber) w1
      exact ⟨d, h1.trans (by rw [hcc1]), h2⟩
    | ok travels =>
      set T := confirmTravelsLoop { user with accessToken := w1.client.accessToken }
        card.cardNumber
        (travels.filter fun travel =>
          decide (travel.travelConfirmed = TravelConfirmedStatus.TO_BE_CONFIRMED))
        (initCount counts card.cardNumber) w1 with hT
      obtain ⟨hI1, -, -⟩ := confirmTravelsLoop_confirmCalls
        (travels.filter fun travel =>
          decide (travel.travelConfirmed = TravelConfirmedStatus.TO_BE_CONFIRMED))
        { user with accessToken := w1.client.accessToken } card.cardNumber
        (initCount counts card.cardNumber) w1
      obtain ⟨d, h1, h2⟩ := ih T.1 T.2.1 T.2.2
      refine ⟨(travels.filter fun travel =>
          decide (travel.travelConfirmed = TravelConfirmedStatus.TO_BE_CONFIRMED)) ++ d, ?_, ?_⟩
      · have hTcc : T.2.2.confirmCalls = w.confirmCalls ++
            (travels.filter fun travel =>
              decide (travel.travelConfirmed = TravelConfirmedStatus.TO_BE_CONFIRMED)) := by
          rw [hI1, hcc1]
        exact h1.trans (by rw [hTcc, List.append_assoc])
      · intro t ht
        rcases List.mem_append.mp ht with hF | hd
        · exact of_decide_eq_true (List.mem_filter.mp hF).2
        · exact h2 t hd

theorem cardsLoop_queries (cards : List Card) (user : SNCFUser) (counts : CountMap)
    (w : World) :
    (cardsLoop user cards counts w).2.2.travelQueries =
      w.travelQueries ++ cards.map (fun card => card.cardNumber) ∧
    (cardsLoop user cards counts w).2.2.customerInfos = w.customerInfos := by
  induction cards generalizing user counts w with
  | nil => exact ⟨by simp [cardsLoop], rfl⟩
  | cons card rest ih =>
    simp only [cardsLoop]
    rcases hgt : getTravels card.cardNumber w with ⟨res, w1⟩
    have hw := getTravels_world card.cardNumber w
    rw [hgt] at hw
    have htq1 : w1.travelQueries = w.travelQueries ++ [card.cardNumber] := hw.2.1
    have hci1 : w1.customerInfos = w.customerInfos := hw.2.2.2.2
    cases res with
    | error e =>
      obtain ⟨h1, h2⟩ := ih user (initCount counts card.cardNumber) w1
      exact ⟨h1.trans (by rw [htq1, List.append_assoc]; simp), h2.trans hci1⟩
    | ok travels =>
      set T := confirmTravelsLoop { user with accessToken := w1.client.accessToken }
        card.cardNumber
        (travels.filter fun travel =>
          decide (travel.travelConfirmed = TravelConfirmedStatus.TO_BE_CONFIRMED))
        (initCount counts card.cardNumber) w1 with hT
      obtain ⟨-, hI2, hI3⟩ := confirmTravelsLoop_confirmCalls
        (travels.filter fun travel =>
          decide (travel.travelConfirmed = TravelConfirmedStatus.TO_BE_CONFIRMED))
        { user with accessToken := w1.client.accessToken } card.cardNumber
        (initCount counts card.cardNumber) w1
      obtain ⟨h1, h2⟩ := ih T.1 T.2.1 T.2.2
      constructor
      · have hTtq : T.2.2.travelQueries = w.travelQueries ++ [card.cardNumber] := by
          rw [hI2, htq1]
        exact h1.trans (by rw [hTtq, List.append_assoc]; simp)
      · have hTci : T.2.2.customerInfos = w.customerInfos := by
          rw [hI3, hci1]
        exact h2.trans hTci

theorem processUser_spec (user : SNCFUser) (counts : CountMap) (w : World) :
    FoldStep { w with client := ClientState.mk user.accessToken none }
      (processUser user counts w).2.2 ∧
    TokenFrom (ClientState.mk user.accessToken none) w.pending
      (processUser user counts w).1.accessToken := by
  unfold processUser
  simp only
  split
  · rename_i e w1 heq
    have h := getCustomerInfo_error_world _ w1 e heq
    exact ⟨h.1, tokenFrom_base (ClientState.mk user.accessToken none) w.pending⟩
  · rename_i info w1 heq
    have h := getCustomerInfo_ok_world _ w1 info heq
    split
    · exact ⟨h.1, tokenFrom_self h.1⟩
    · have hs := cardsLoop_spec (info.cards.filter validCardFilter)
        { user with accessToken := w1.client.accessToken, name := some (info.firstName ++ " " ++ info.lastName) }
        counts w1
      refine ⟨foldStep_trans h.1 hs.1, ?_⟩
      cases hs.2 with
      | inl h2 =>
        have h2' : (cardsLoop
            { user with accessToken := w1.client.accessToken, name := some (info.firstName ++ " " ++ info.lastName) }
            (info.cards.filter validCardFilter) counts w1).1.accessToken =
            w1.client.accessToken := h2
        exact h2'.symm ▸ tokenFrom_self h.1
      | inr h2 => exact tokenFrom_shift h.1 h2

theorem processUser_confirmCalls (user : SNCFUser) (counts : CountMap) (w : World) :
    ∃ d, (processUser user counts w).2.2.confirmCalls = w.confirmCalls ++ d ∧
      ∀ t ∈ d, t.travelConfirmed = TravelConfirmedStatus.TO_BE_CONFIRMED := by
  unfold processUser
  simp only
  split
  · rename_i e w1 heq
    have h := getCustomerInfo_error_world _ w1 e heq
    exact ⟨[], by simp [h.2.1], by simp⟩
  · rename_i info w1 heq
    have h := getCustomerInfo_ok_world _ w1 info heq
    have hcc1 : w1.confirmCalls = w.confirmCalls := h.2.2.1
    split
    · exact ⟨[], by simp [hcc1], by simp⟩
    · obtain ⟨d, h1, h2⟩ := cardsLoop_confirmCalls (info.cards.filter validCardFilter)
        { user with accessToken := w1.client.accessToken, name := some (info.firstName ++ " " ++ info.lastName) }
        counts w1
      exact ⟨d, h1.trans (by rw [hcc1]), h2⟩

theorem processUser_queries (user : SNCFUser) (counts : CountMap) (w : World) :
    ∃ dq di, (processUser user counts w).2.2.travelQueries = w.travelQueries ++ dq ∧
      (processUser user counts w).2.2.customerInfos = w.customerInfos ++ di ∧
      ∀ q ∈ dq, ∃ info ∈ di, ∃ card ∈ info.cards,
        validCardFilter card = true ∧ q = card.cardNumber := by
  unfold processUser
  simp only
  split
  · rename_i e w1 heq
    have h := getCustomerInfo_error_world _ w1 e heq
    exact ⟨[], [], by simp [h.2.2.2.1], by simp [h.2.2.2.2], by simp⟩
  · rename_i info w1 heq
    have h := getCustomerInfo_ok_world _ w1 info heq
    have hci1 : w1.customerInfos = w.customerInfos ++ [info] := h.2.1
    have htq1 : w1.travelQueries = w.travelQueries := h.2.2.2.2
    split
    · exact ⟨[], [info], by simp [htq1], hci1, by simp⟩
    · obtain ⟨h1, h2⟩ := cardsLoop_queries (info.cards.filter validCardFilter)
        { user with accessToken := w1.client.accessToken, name := some (info.firstName ++ " " ++ info.lastName) }
        counts w1
      refine ⟨(info.cards.filter validCardFilter).map (fun card => card.cardNumber),
        [info], h1.trans (by rw [htq1]), h2.trans hci1, ?_⟩
      intro q hq
      obtain ⟨card, hcard, hqc⟩ := List.mem_map.mp hq
      exact ⟨info, List.mem_singleton.mpr rfl, card,
        (List.mem_filter.mp hcard).1, (List.mem_filter.mp hcard).2, hqc.symm⟩

theorem usersLoop_confirmCalls (users : List SNCFUser) (counts : CountMap) (w : World) :
    ∃ d, (usersLoop users counts w).2.2.confirmCalls = w.confirmCalls ++ d ∧
      ∀ t ∈ d, t.travelConfirmed = TravelConfirmedStatus.TO_BE_CONFIRMED := by
  induction users generalizing counts w with
  | nil => exact ⟨[], by simp [usersLoop], by simp⟩
  | cons user rest ih =>
    simp only [usersLoop]
    obtain ⟨d1, h1, h2⟩ := processUser_confirmCalls user counts w
    obtain ⟨d2, h3, h4⟩ := ih (processUser user counts w).2.1 (processUser user counts w).2.2
    refine ⟨d1 ++ d2, h3.trans (by rw [h1, List.append_assoc]), ?_⟩
    intro t ht
    rcases List.mem_append.mp ht with h | h
    · exact h2 t h
    · exact h4 t h

theorem usersLoop_queries (users : List SNCFUser) (counts : CountMap) (w : World) :
    ∃ dq di, (usersLoop users counts w).2.2.travelQueries = w.travelQueries ++ dq ∧
      (usersLoop users counts w).2.2.customerInfos = w.customerInfos ++ di ∧
      ∀ q ∈ dq, ∃ info ∈ di, ∃ card ∈ info.cards,
        validCardFilter card = true ∧ q = card.cardNumber := by
  induction users generalizing counts w with
  | nil => exact ⟨[], [], by simp [usersLoop], by simp [usersLoop], by simp⟩
  | cons user rest ih =>
    simp only [usersLoop]
    obtain ⟨dq1, di1, h1, h2, h3⟩ := processUser_queries user counts w
    obtain ⟨dq2, di2, h4, h5, h6⟩ :=
      ih (processUser user counts w).2.1 (processUser user counts w).2.2
    refine ⟨dq1 ++ dq2, di1 ++ di2, h4.trans (by rw [h1, List.append_assoc]),
      h5.trans (by rw [h2, List.append_assoc]), ?_⟩
    intro q hq
    rcases List.mem_append.mp hq with h | h
    · obtain ⟨info, hinfo, card, hcard, hfil, hqc⟩ := h3 q h
      exact ⟨info, List.mem_append_left di2 hinfo, card, hcard, hfil, hqc⟩
    · obtain ⟨info, hinfo, card, hcard, hfil, hqc⟩ := h6 q h
      exact ⟨info, List.mem_append_right di1 hinfo, card, hcard, hfil, hqc⟩

theorem usersLoop_append (us1 us2 : List SNCFUser) (counts : CountMap) (w : World) :
    usersLoop (us1 ++ us2) counts w =
      ((usersLoop us1 counts w).1 ++
        (usersLoop us2 (usersLoop us1 counts w).2.1 (usersLoop us1 counts w).2.2).1,
       (usersLoop us2 (usersLoop us1 counts w).2.1 (usersLoop us1 counts w).2.2).2) := by
  induction us1 generalizing counts w with
  | nil => simp [usersLoop]
  | cons user rest ih =>
    simp only [List.cons_append, usersLoop]
    simp [ih]


/-- C1: the spec says a first-attempt 401 triggers a refresh and then exactly
one retry of the original call. On the failing input below (first response
401, then a successful refresh response rotating the token to T2, then a
success response for the would-be retry) the code invokes the refresh — the
trace shows the original request and the refresh request — but never retries:
it throws the composite error, the scripted retry response is left unconsumed,
and the rotated token T2 has nevertheless been adopted. The retry branch of
`makeRequest` is unreachable because `refreshToken` always throws (see C2). -/
theorem makeRequest_first401_never_retried :
    (makeRequest consultUrl wFirst401).1 =
      Except.error (ApiError.requestFailedWithRefresh ApiError.refreshNoNewCookie 401 ("expired")) ∧
    (makeRequest consultUrl wFirst401).2.pending = [respPlain200] ∧
    (makeRequest consultUrl wFirst401).2.trace =
      [Request.mk consultUrl ("auth=T1"), Request.mk refreshUrl ("auth=T1")] ∧
    (makeRequest consultUrl wFirst401).2.client.accessToken = ("T2") :=
  ⟨rfl, rfl, rfl, rfl⟩

/-- C2: the spec (and the function's own doc comment) says `refreshToken`
succeeds when the refresh response is successful and carries an auth token
different from the one held when the call was issued. On the failing input
(held token T1, refresh response 200 with Set-Cookie auth=T2) the code first
adopts T2 via `updateCookiesFromResponse` and then compares the extracted
cookie against the already-updated token, so it throws
"Token refresh did not return a new auth cookie" — `refreshToken` never
resolves successfully. -/
theorem refreshToken_rejects_fresh_token :
    (refreshToken wRotatedRefresh).1 = Except.error ApiError.refreshNoNewCookie ∧
    (refreshToken wRotatedRefresh).2.client.accessToken = ("T2") ∧
    respRefreshRotated.ok = true ∧
    extractCookieFromHeaders respRefreshRotated ("auth") = some ("T2") ∧
    wRotatedRefresh.client.accessToken = ("T1") ∧
    ¬(("T2" : String) = ("T1")) :=
  ⟨rfl, rfl, rfl, rfl, rfl, by decide⟩

/-- C3 counterexample: one credential holding T1; the only scripted response
is a 500 that rotates the auth cookie to T2. The client adopts T2 (final
client token is T2, the response was consumed), but because the call failed
the orchestrator never copies the token back, so the persisted credential
list still holds the stale T1 — refuting the claim that the persisted
credential always holds the rotated token. -/
theorem stale_token_persisted_over_rotated :
    (confirmUserTravels [staleUser] wStaleRun).2.1 = [staleUser] ∧
    staleUser.accessToken = ("T1") ∧
    (confirmUserTravels [staleUser] wStaleRun).2.2.client.accessToken = ("T2") ∧
    (confirmUserTravels [staleUser] wStaleRun).2.2.pending = [] ∧
    extractCookieFromHeaders resp500Rotated ("auth") = some ("T2") ∧
    ¬(("T1" : String) = ("T2")) :=
  ⟨rfl, rfl, rfl, rfl, rfl, by decide⟩

/-- C3 as amended: during one credential's processing the client state evolves
exactly by adopting, in order, the cookies of the responses it received (so a
rotated token is used, via the current client state, by every subsequent call
of that credential and is never spontaneously reverted), and the token left on
the credential record is one the client actually held at some point of that
processing — the original token or one adopted from the service. (A rotation
received during a failed call need not be the one persisted, as the
counterexample shows.) The full run applies this per credential:
`usersLoop` is the sequential composition of `processUser` steps. -/
theorem processUser_token_evolution_and_provenance (user : SNCFUser) (counts : CountMap)
    (w : World) :
    (∃ k, (processUser user counts w).2.2.pending = w.pending.drop k ∧
      (processUser user counts w).2.2.client =
        holds (ClientState.mk user.accessToken none) (w.pending.take k)) ∧
    (∃ j, (processUser user counts w).1.accessToken =
      (holds (ClientState.mk user.accessToken none) (w.pending.take j)).accessToken) := by
  obtain ⟨h1, h2⟩ := processUser_spec user counts w
  exact ⟨h1, h2⟩

/-- C3 witness: the amended claim instantiated on the counterexample run. -/
theorem processUser_token_evolution_witness :
    ∃ j, (processUser staleUser [] wStaleRun).1.accessToken =
      (holds (ClientState.mk staleUser.accessToken none)
        (wStaleRun.pending.take j)).accessToken :=
  (processUser_token_evolution_and_provenance staleUser [] wStaleRun).2

/-- C4: whatever the outcome of `makeRequest`, the first received response has
its cookies adopted immediately: the final client state is the in-order
adoption fold starting from the state already updated with the first
response, and when that response carries an auth cookie (necessarily
different from the held token if an update is visible), the updated state
holds exactly that cookie. This holds for successful and failing responses
alike, before any status check, retry or error. -/
theorem makeRequest_adopts_rotation_before_outcome (url : String) (w : World) (r : Response)
    (rest : List Response) (hp : w.pending = r :: rest) :
    (∃ k, (makeRequest url w).2.pending = rest.drop k ∧
      (makeRequest url w).2.client =
        holds (updateCookiesFromResponse w.client r) (rest.take k)) ∧
    (∀ t, extractCookieFromHeaders r ("auth") = some t →
      (updateCookiesFromResponse w.client r).accessToken = t) := by
  constructor
  · have hAF : FoldStep (afterFetch url w r rest) (makeRequest url w).2 := by
      rw [makeRequest_cons url w r rest hp]
      by_cases h401 : r.status = 401 ∨ r.status = 403
      · rw [if_pos h401]
        rcases hres : refreshToken (afterFetch url w r rest) with ⟨res, w3⟩
        have h3 : FoldStep (afterFetch url w r rest) w3 := by
          have h := refreshToken_foldStep (afterFetch url w r rest)
          rw [hres] at h
          exact h
        cases res with
        | ok u => exact foldStep_trans h3 (makeRequestNoRetry_foldStep url w3)
        | error e => exact h3
      · rw [if_neg h401]
        exact finishRequest_foldStep r (afterFetch url w r rest)
    obtain ⟨k, h1, h2⟩ := hAF
    exact ⟨k, h1, h2⟩
  · intro t ht
    exact updateCookies_accessToken_eq w.client r t ht

/-- C4 witness: on the concrete rotating response the client adopts T2. -/
theorem makeRequest_adopts_rotation_witness :
    (updateCookiesFromResponse wRotatedRefresh.client respRefreshRotated).accessToken = ("T2") :=
  (makeRequest_adopts_rotation_before_outcome consultUrl wRotatedRefresh respRefreshRotated []
    rfl).2 ("T2") rfl

/-- C5: when the first attempt returns 401 or 403, the (always failing, see
C2) refresh makes `makeRequest` throw a single composite error carrying the
refresh failure together with the original status and body; its message names
both failures; and the trace grows by exactly the original request and the
refresh request — the original call is not retried. -/
theorem makeRequest_composite_error_after_failed_refresh (url : String) (w : World)
    (r : Response) (rest : List Response) (hp : w.pending = r :: rest)
    (h401 : r.status = 401 ∨ r.status = 403) :
    ∃ e, (makeRequest url w).1 =
        Except.error (ApiError.requestFailedWithRefresh e r.status r.body) ∧
      (ApiError.requestFailedWithRefresh e r.status r.body).message =
        ("API request failed due to expired token, and refresh failed: " ++ e.message ++
          ". Original error (" ++ toString r.status ++ "): " ++ r.body) ∧
      (makeRequest url w).2.trace = w.trace ++
        [Request.mk url (buildCookieHeader w.client),
         Request.mk refreshUrl (buildCookieHeader (updateCookiesFromResponse w.client r))] := by
  obtain ⟨e, hrefresh, heq⟩ := makeRequest_401_spec url w r rest hp h401
  refine ⟨e, by rw [heq], rfl, ?_⟩
  rw [heq]
  show ((refreshToken (afterFetch url w r rest)).2).trace = _
  rw [refreshToken_trace (afterFetch url w r rest)]
  show (w.trace ++ [Request.mk url (buildCookieHeader w.client)]) ++
      [Request.mk refreshUrl (buildCookieHeader (afterFetch url w r rest).client)] = _
  rw [List.append_assoc]
  rfl

/-- C5 witness: the composite error on the concrete 401 scenario. -/
theorem makeRequest_composite_error_witness :
    ∃ e, (makeRequest consultUrl wFirst401).1 =
      Except.error (ApiError.requestFailedWithRefresh e resp401.status resp401.body) := by
  obtain ⟨e, h1, -, -⟩ := makeRequest_composite_error_after_failed_refresh consultUrl wFirst401
    resp401 [respRefreshRotated, respPlain200] rfl (Or.inl rfl)
  exact ⟨e, h1⟩

theorem processUser_skip (user : SNCFUser) (counts : CountMap) (w : World)
    (info : CustomerInfo) (w1 : World)
    (heq : getCustomerInfo { w with client := ClientState.mk user.accessToken none } =
      (Except.ok info, w1))
    (hv : (info.cards.filter validCardFilter).isEmpty = true) :
    (processUser user counts w).2.1 = counts ∧
    (processUser user counts w).2.2.travelQueries = w.travelQueries ∧
    (processUser user counts w).2.2.confirmCalls = w.confirmCalls := by
  unfold processUser
  simp only
  split
  · rename_i e w1' heq'
    exact absurd (heq'.symm.trans heq) (by simp)
  · rename_i info' w1' heq'
    have hpair := heq'.symm.trans heq
    simp only [Prod.mk.injEq, Except.ok.injEq] at hpair
    obtain ⟨hi, hw⟩ := hpair
    subst hi hw
    have h := getCustomerInfo_ok_world _ w1' info' heq'
    split
    · exact ⟨rfl, h.2.2.2.2, h.2.2.1⟩
    · rename_i hv'
      exact absurd hv hv'

/-- C6: `lambdaHandler` answers 500 exactly when `getUsers` fails — which
happens exactly on a missing store value, unparsable JSON or a non-array
value — and in that case the world is untouched (no API call was made); in
every other case it answers 204, whatever happened during the run. -/
theorem lambdaHandler_statusCode_policy (store : StoreValue) (w : World) :
    ((∃ e, getUsers store = Except.error e) ↔
      (store = StoreValue.missing ∨ store = StoreValue.invalidJson ∨
        store = StoreValue.jsonNonArray)) ∧
    (∀ e, getUsers store = Except.error e →
      (lambdaHandler store w).1.statusCode = 500 ∧ (lambdaHandler store w).2 = w) ∧
    (∀ us, getUsers store = Except.ok us → (lambdaHandler store w).1.statusCode = 204) := by
  refine ⟨?_, ?_, ?_⟩
  · cases store <;> simp [getUsers]
  · intro e he
    unfold lambdaHandler
    rw [he]
    exact ⟨rfl, rfl⟩
  · intro us hus
    unfold lambdaHandler
    rw [hus]

/-- C6 witness: a missing store value gives 500 and leaves the world
untouched; an (empty) credential array gives 204. -/
theorem lambdaHandler_statusCode_witness :
    (lambdaHandler StoreValue.missing scnWorld).1.statusCode = 500 ∧
    (lambdaHandler StoreValue.missing scnWorld).2 = scnWorld ∧
    (lambdaHandler (StoreValue.jsonArray []) scnWorld).1.statusCode = 204 := by
  refine ⟨?_, ?_, ?_⟩
  · exact ((lambdaHandler_statusCode_policy StoreValue.missing scnWorld).2.1
      GetUsersError.cannotGet rfl).1
  · exact ((lambdaHandler_statusCode_policy StoreValue.missing scnWorld).2.1
      GetUsersError.cannotGet rfl).2
  · exact (lambdaHandler_statusCode_policy (StoreValue.jsonArray []) scnWorld).2.2 [] rfl

/-- C7: (a) the user loop is compositional — processing `us1 ++ us2` runs
`us2` from exactly the state left by `us1`, whatever failures occurred there
(one credential's failure cannot abort the batch, since every outcome is an
ordinary value passed on); (b) for the confirmation loop of one card, the
card's count grows by exactly the number of `confirmTravel` calls that
completed successfully (the `confirmOks` ghost delta), and no other card's
count changes. -/
theorem run_isolation_and_exact_counts :
    (∀ us1 us2 counts w, usersLoop (us1 ++ us2) counts w =
      ((usersLoop us1 counts w).1 ++
        (usersLoop us2 (usersLoop us1 counts w).2.1 (usersLoop us1 counts w).2.2).1,
       (usersLoop us2 (usersLoop us1 counts w).2.1 (usersLoop us1 counts w).2.2).2)) ∧
    (∀ (user : SNCFUser) (cd : String) (ts : List Travel) (counts : CountMap) (w : World),
      ∃ d, (confirmTravelsLoop user cd ts counts w).2.2.confirmOks = w.confirmOks ++ d ∧
        (lookupCount (confirmTravelsLoop user cd ts counts w).2.1 cd).getD 0 =
          (lookupCount counts cd).getD 0 + d.length ∧
        ∀ cd', cd' ≠ cd →
          lookupCount (confirmTravelsLoop user cd ts counts w).2.1 cd' =
            lookupCount counts cd') :=
  ⟨usersLoop_append, fun user cd ts counts w => confirmTravelsLoop_counts ts user cd counts w⟩

/-- C7 witness: the isolation equation instantiated on a concrete
two-credential batch — the second credential is processed from exactly the
state the first one left behind (here an exhausted oracle). -/
theorem run_isolation_witness :
    (usersLoop ([staleUser] ++ [scnUser]) [] scnWorld).1 =
      (usersLoop [staleUser] [] scnWorld).1 ++
        (usersLoop [scnUser] (usersLoop [staleUser] [] scnWorld).2.1
          (usersLoop [staleUser] [] scnWorld).2.2).1 :=
  congrArg Prod.fst (run_isolation_and_exact_counts.1 [staleUser] [scnUser] [] scnWorld)

/-- C8: every travel ever passed to `confirmTravel` during a run (recorded in
the `confirmCalls` ghost list) has status `TO_BE_CONFIRMED`; travels with any
other status are never passed to confirm. -/
theorem confirm_only_to_be_confirmed (users : List SNCFUser) (w : World) :
    ∃ d, (confirmUserTravels users w).2.2.confirmCalls = w.confirmCalls ++ d ∧
      ∀ t ∈ d, t.travelConfirmed = TravelConfirmedStatus.TO_BE_CONFIRMED := by
  obtain ⟨d, h1, h2⟩ := usersLoop_confirmCalls users [] w
  exact ⟨d, h1, h2⟩

/-- C8 witness: on the concrete scenario exactly the `TO_BE_CONFIRMED` travel
is passed to confirm. -/
theorem confirm_only_to_be_confirmed_witness :
    ∃ d, (confirmUserTravels [scnUser] scnWorld).2.2.confirmCalls =
        scnWorld.confirmCalls ++ d ∧
      ∀ t ∈ d, t.travelConfirmed = TravelConfirmedStatus.TO_BE_CONFIRMED :=
  confirm_only_to_be_confirmed [scnUser] scnWorld

/-- C9: every card number ever passed to `getTravels` during a run comes from
a card of a customer info obtained during that run that passes the
`VALIDE` + `TGV_MAX_JEUNE` filter; and a credential whose customer info has
no eligible cards is skipped entirely — no travel query, no confirm call and
no count change happen for it. -/
theorem travels_queried_only_for_eligible_cards :
    (∀ (users : List SNCFUser) (w : World), ∃ dq di,
      (confirmUserTravels users w).2.2.travelQueries = w.travelQueries ++ dq ∧
      (confirmUserTravels users w).2.2.customerInfos = w.customerInfos ++ di ∧
      ∀ q ∈ dq, ∃ info ∈ di, ∃ card ∈ info.cards,
        card.contractStatus = ("VALIDE") ∧ card.productType = ("TGV_MAX_JEUNE") ∧
        q = card.cardNumber) ∧
    (∀ (user : SNCFUser) (counts : CountMap) (w : World) (info : CustomerInfo) (w1 : World),
      getCustomerInfo { w with client := ClientState.mk user.accessToken none } =
        (Except.ok info, w1) →
      (info.cards.filter validCardFilter).isEmpty = true →
      (processUser user counts w).2.1 = counts ∧
      (processUser user counts w).2.2.travelQueries = w.travelQueries ∧
      (processUser user counts w).2.2.confirmCalls = w.confirmCalls) := by
  constructor
  · intro users w
    obtain ⟨dq, di, h1, h2, h3⟩ := usersLoop_queries users [] w
    refine ⟨dq, di, h1, h2, ?_⟩
    intro q hq
    obtain ⟨info, hinfo, card, hcard, hfil, hqc⟩ := h3 q hq
    have hfil' : card.contractStatus = ("VALIDE") ∧ card.productType = ("TGV_MAX_JEUNE") := by
      have := hfil
      unfold validCardFilter at this
      simp only [Bool.and_eq_true, beq_iff_eq] at this
      exact this
    exact ⟨info, hinfo, card, hcard, hfil'.1, hfil'.2, hqc⟩
  · intro user counts w info w1 heq hv
    exact processUser_skip user counts w info w1 heq hv

/-- C9 witness: a credential whose customer has no cards at all is skipped —
its processing changes no counts, queries no travels and confirms nothing. -/
theorem travels_queried_witness :
    (processUser scnUser [] scnWorldNoCards).2.1 = ([] : CountMap) ∧
    (processUser scnUser [] scnWorldNoCards).2.2.travelQueries =
      scnWorldNoCards.travelQueries :=
  ⟨(travels_queried_only_for_eligible_cards.2 scnUser [] scnWorldNoCards scnInfoNoCards
      (getCustomerInfo { scnWorldNoCards with
        client := ClientState.mk scnUser.accessToken none }).2 rfl rfl).1,
   (travels_queried_only_for_eligible_cards.2 scnUser [] scnWorldNoCards scnInfoNoCards
      (getCustomerInfo { scnWorldNoCards with
        client := ClientState.mk scnUser.accessToken none }).2 rfl rfl).2.1⟩

/-- Over arrays of object-like (non-null) elements, `getUsers` succeeds and
returns exactly the entries whose `accessToken` is present and non-empty
(JS-truthy), in their original order, each with a non-empty token. -/
theorem getUsers_objects_keeps_truthy_tokens (raw : List RawUser) :
    ∃ us, getUsers (StoreValue.jsonArray raw) = Except.ok us ∧
      us.map (fun u => RawUser.mk u.name (some u.accessToken)) =
        raw.filter (fun u => truthyToken u.accessToken) ∧
      ∀ u ∈ us, ¬(u.accessToken = ("" : String)) := by
  refine ⟨_, rfl, ?_, ?_⟩
  · induction raw with
    | nil => simp
    | cons u rest ih =>
      obtain ⟨nm, tok⟩ := u
      cases tok with
      | none => simpa [List.filterMap_cons, List.filter_cons, truthyToken] using ih
      | some t =>
        by_cases heq : t = ("" : String)
        · subst heq
          simpa [List.filterMap_cons, List.filter_cons, truthyToken] using ih
        · simp only [truthyToken, beq_iff_eq] at ih ⊢
          simp [List.filterMap_cons, List.filter_cons, heq, ih]
  · intro u' hu'
    obtain ⟨x, hx, hfx⟩ := List.mem_filterMap.mp hu'
    obtain ⟨nm, tok⟩ := x
    cases tok with
    | none => simp at hfx
    | some t =>
      by_cases ht : t = ("" : String)
      · subst ht
        simp at hfx
      · change (if (t == ("" : String)) = true then none
            else some (SNCFUser.mk nm t)) = some u' at hfx
        rw [if_neg (by simp [ht])] at hfx
        injection hfx with h
        subst h
        exact ht

theorem filterTruthyTokens_objects (raw : List RawUser) :
    filterTruthyTokens (raw.map StoredElem.obj) =
      Except.ok (raw.filterMap (fun user =>
        match user.accessToken with
        | some t => if t == ("" : String) then none else some (SNCFUser.mk user.name t)
        | none => none)) := by
  induction raw with
  | nil => rfl
  | cons u rest ih =>
    obtain ⟨nm, tok⟩ := u
    cases tok with
    | none => simpa [filterTruthyTokens, List.filterMap_cons] using ih
    | some t =>
      by_cases heq : t = ("" : String)
      · subst heq
        simpa [filterTruthyTokens, List.filterMap_cons] using ih
      · simp [filterTruthyTokens, List.filterMap_cons, heq, ih, Except.map]

theorem filterTruthyTokens_null_mem (elems : List StoredElem)
    (h : StoredElem.jsNull ∈ elems) :
    filterTruthyTokens elems = Except.error GetUsersErrorJS.typeError := by
  induction elems with
  | nil => cases h
  | cons e rest ih =>
    cases e with
    | jsNull => rfl
    | obj user =>
      have htail : StoredElem.jsNull ∈ rest := by
        cases List.mem_cons.mp h with
        | inl h' => exact StoredElem.noConfusion h'
        | inr h' => exact h'
      obtain ⟨nm, tok⟩ := user
      cases tok with
      | none => simpa [filterTruthyTokens] using ih htail
      | some t =>
        by_cases heq : t = ("" : String)
        · subst heq
          simpa [filterTruthyTokens] using ih htail
        · simp [filterTruthyTokens, heq, ih htail, Except.map]

/-- C10 counterexample: the stored value `[null]` parses to a JSON array, and
its single element has no access token, yet `getUsers` does not return the
filtered entry list (here: the empty list) — reading `accessToken` on the
`null` element inside the filter throws a TypeError that escapes `getUsers`,
so no list is returned at all. -/
theorem getUsers_throws_on_null_entry :
    getUsersJS (StoreValueJS.jsonArray [StoredElem.jsNull]) =
      Except.error GetUsersErrorJS.typeError ∧
    ∀ us, ¬(getUsersJS (StoreValueJS.jsonArray [StoredElem.jsNull]) = Except.ok us) :=
  ⟨rfl, fun _ h => Except.noConfusion h⟩

/-- C10 as amended: when the stored credential value parses to a JSON array
all of whose elements are non-null, `getUsers` returns exactly those entries
whose `accessToken` field is present and non-empty (truthy), in their
original order, and every returned credential carries a non-empty token;
when the array contains a `null` element, the filter instead throws a
TypeError that escapes `getUsers` (which the entry point's generic catch
reports as the 500 failure response, before any API call), so in either case
the orchestrator never receives a credential without an access token. -/
theorem getUsersJS_truthy_or_typeError :
    (∀ raw : List RawUser, ∃ us,
      getUsersJS (StoreValueJS.jsonArray (raw.map StoredElem.obj)) = Except.ok us ∧
      us.map (fun u => RawUser.mk u.name (some u.accessToken)) =
        raw.filter (fun u => truthyToken u.accessToken) ∧
      ∀ u ∈ us, ¬(u.accessToken = ("" : String))) ∧
    (∀ elems : List StoredElem, StoredElem.jsNull ∈ elems →
      getUsersJS (StoreValueJS.jsonArray elems) = Except.error GetUsersErrorJS.typeError) := by
  constructor
  · intro raw
    obtain ⟨us, h1, h2, h3⟩ := getUsers_objects_keeps_truthy_tokens raw
    refine ⟨us, ?_, h2, h3⟩
    have h1' : (raw.filterMap (fun user =>
        match user.accessToken with
        | some t => if t == ("" : String) then none else some (SNCFUser.mk user.name t)
        | none => none)) = us := by injection h1
    show filterTruthyTokens (raw.map StoredElem.obj) = Except.ok us
    rw [filterTruthyTokens_objects raw, h1']
  · intro elems h
    exact filterTruthyTokens_null_mem elems h

/-- C10 witness: the amended claim applied to a concrete non-null sample
array, and to an array containing a `null` element after a valid entry. -/
theorem getUsersJS_truthy_or_typeError_witness :
    (∃ us, getUsersJS (StoreValueJS.jsonArray (rawSample.map StoredElem.obj)) =
      Except.ok us) ∧
    getUsersJS (StoreValueJS.jsonArray
        [StoredElem.obj (RawUser.mk (some ("u")) (some ("T1"))), StoredElem.jsNull]) =
      Except.error GetUsersErrorJS.typeError := by
  constructor
  · obtain ⟨us, h1, -, -⟩ := getUsersJS_truthy_or_typeError.1 rawSample
    exact ⟨us, h1⟩
  · exact getUsersJS_truthy_or_typeError.2
      [StoredElem.obj (RawUser.mk (some ("u")) (some ("T1"))), StoredElem.jsNull] (by decide)

end SNCF
